import Mathlib

/-!
Shallow embedding of `src/src/services/ngx-smart-modal.service.ts`
(class `NgxSmartModalService`), the modal registry of the repository.

Modelling conventions:
* A modal handle (`NgxSmartModalComponent`) is the part of the external
  component the registry reads: the `visible` flag and the `layerPosition`
  number (`layerPosition` is an integer z-index, modelled as `Int`).
* JS `null`/`false` "absent" results are modelled with `Option`.
* The payload type of `modalData` entries (`object | any[] | number |
  string | boolean` in the source) is an arbitrary type parameter `α`.
* The service's two mutable arrays become the fields of an explicit state
  record `NgxSmartModalService α`; each method becomes a function from the
  state (and its arguments) to the new state and/or its return value.
* `setModalData` schedules its two possible writes with `setTimeout`;
  the definition below returns the state once that deferred write has run,
  with operations applied one after the other, each to completion.
-/

/-- The slice of the external modal component the registry reads
(`o.modal.visible`, `o.modal.layerPosition` in the source). -/
structure NgxSmartModalComponent where
  visible : Bool
  layerPosition : Int
  deriving DecidableEq

/-- `ModalInstance`: the `{id, modal}` pair stored in `modalStack`. -/
structure ModalInstance where
  id : String
  modal : NgxSmartModalComponent
  deriving DecidableEq

/-- An element of `modalData`: the `{data, id}` object pushed by
`setModalData`. -/
structure DataEntry (α : Type) where
  id : String
  data : α
  deriving DecidableEq

/-- The mutable state of `NgxSmartModalService`: the `modalStack` and
`modalData` arrays. -/
structure NgxSmartModalService (α : Type) where
  modalStack : List ModalInstance
  modalData : List (DataEntry α)
  deriving DecidableEq

/-- The state of a freshly constructed service: both arrays initialized
to `[]`. -/
def emptyService (α : Type) : NgxSmartModalService α :=
  { modalStack := [], modalData := [] }

/-- Replace the `modal` field of the first element whose `id` matches,
leaving everything else in place: this is
`this.modalStack[i].modal = modalInstance.modal` at
`i = findIndex(o => o.id === modalInstance.id)`. -/
def overwriteModalFirst (l : List ModalInstance) (id : String)
    (m : NgxSmartModalComponent) : List ModalInstance :=
  match l with
  | [] => []
  | e :: es =>
      if e.id == id then { e with modal := m } :: es
      else e :: overwriteModalFirst es id m

/-- `addModal(modalInstance, force?)`. With `force` truthy the source runs
`findIndex`; when a match exists it overwrites that entry's `modal` field,
and in BOTH cases it then executes `return`, so nothing is ever pushed.
Without `force` (or with it omitted, i.e. `force = false` here) the
instance is pushed unconditionally. -/
def addModal {α : Type} (s : NgxSmartModalService α)
    (modalInstance : ModalInstance) (force : Bool) : NgxSmartModalService α :=
  if force then
    match s.modalStack.findIdx? (fun o => o.id == modalInstance.id) with
    | some _ =>
        { s with modalStack :=
            overwriteModalFirst s.modalStack modalInstance.id modalInstance.modal }
    | none => s
  else
    { s with modalStack := s.modalStack ++ [modalInstance] }

/-- `getModal(id)`: `let modal = null; forEach(m => m.id === id ? modal = m
: false); return modal`. The loop visits every element, so the LAST match
wins, and the value assigned is the whole `ModalInstance` `m` (the source's
declared return type is `NgxSmartModalComponent`, but `.modal` is never
projected). `none` models the `null` returned when nothing matches. -/
def getModal {α : Type} (s : NgxSmartModalService α) (id : String) :
    Option ModalInstance :=
  s.modalStack.foldl (fun modal m => if m.id == id then some m else modal) none

/-- `getModalStack()`: returns the `modalStack` array. -/
def getModalStack {α : Type} (s : NgxSmartModalService α) : List ModalInstance :=
  s.modalStack

/-- `getOpenedModals()`: starts from `[]` and pushes, in stack order, every
element whose `modal.visible` is true. -/
def getOpenedModals {α : Type} (s : NgxSmartModalService α) : List ModalInstance :=
  s.modalStack.foldl
    (fun modals o => if o.modal.visible then modals ++ [o] else modals) []

/-- JS `Math.max(...index)` over a list of integers. On an empty argument
list `Math.max()` returns `-Infinity`, a non-finite double; `none` models
that non-finite value, `some` the finite maximum. -/
def jsMathMax : List Int → Option Int
  | [] => none
  | x :: xs => some (xs.foldl max x)

/-- `getHigherIndex()`: collects `o.modal.layerPosition` over
`getOpenedModals()` and returns `Math.max(...index) + 1`. Adding 1 to
`-Infinity` is still `-Infinity`, so the non-finite case (`none`) is
propagated unchanged by `Option.map`. -/
def getHigherIndex {α : Type} (s : NgxSmartModalService α) : Option Int :=
  let index := (getOpenedModals s).map (fun o => o.modal.layerPosition)
  (jsMathMax index).map (fun m => m + 1)

/-- `getModalStackCount()`: `this.modalStack.length`. -/
def getModalStackCount {α : Type} (s : NgxSmartModalService α) : Nat :=
  s.modalStack.length

/-- `removeModal(id)`: the source evaluates
`this.modalStack.filter(o => o.id === id)` and discards the result (it is
neither assigned back nor returned), so the state is returned unchanged. -/
def removeModal {α : Type} (s : NgxSmartModalService α) (id : String) :
    NgxSmartModalService α :=
  let _dropped := s.modalStack.filter (fun o => o.id == id)
  s

/-- Overwrite the `data` field of the first element whose `id` matches:
`this.modalData[this.modalData.findIndex(o => o.id === id)].data = data`
(the branch is only reached when a match exists). -/
def setDataFirst {α : Type} (l : List (DataEntry α)) (id : String) (d : α) :
    List (DataEntry α) :=
  match l with
  | [] => []
  | e :: es =>
      if e.id == id then { e with data := d } :: es
      else e :: setDataFirst es id d

/-- `setModalData(data, id)`: if no `modalStack` entry has this `id`,
return `false` and change nothing. Otherwise return `true`, and either
overwrite the first matching `modalData` entry's `data` field or push
`{data, id}`; the source defers that one write with `setTimeout`, and the
returned state is the state once it has run. -/
def setModalData {α : Type} (s : NgxSmartModalService α) (data : α)
    (id : String) : Bool × NgxSmartModalService α :=
  if (s.modalStack.find? (fun o => o.id == id)).isSome then
    if (s.modalData.find? (fun o => o.id == id)).isSome then
      (true, { s with modalData := setDataFirst s.modalData id data })
    else
      (true, { s with modalData := s.modalData ++ [{ id := id, data := data }] })
  else
    (false, s)

/-- `getModalData(id)`: `let data = false; forEach(o => o.id === id ? data
= o : false); return data`. As in `getModal`, the LAST match wins and the
value returned is the whole `DataEntry` `o`, not its `data` field; `none`
models the `false` returned when nothing matches. -/
def getModalData {α : Type} (s : NgxSmartModalService α) (id : String) :
    Option (DataEntry α) :=
  s.modalData.foldl (fun data o => if o.id == id then some o else data) none

/-- `getAllModalData()`: returns the `modalData` array. -/
def getAllModalData {α : Type} (s : NgxSmartModalService α) : List (DataEntry α) :=
  s.modalData

/-- `resetModalData(id)`: evaluates
`this.modalData.filter(o => o.id === id)` and discards the result, so the
state is returned unchanged. -/
def resetModalData {α : Type} (s : NgxSmartModalService α) (id : String) :
    NgxSmartModalService α :=
  let _dropped := s.modalData.filter (fun o => o.id == id)
  s

/-- `resetAllModalData()`: `this.modalData = []`. -/
def resetAllModalData {α : Type} (s : NgxSmartModalService α) :
    NgxSmartModalService α :=
  { s with modalData := [] }

/-- One state-mutating call on the service, for reasoning about arbitrary
call sequences. -/
inductive RegistryOp (α : Type) where
  | addModal (m : ModalInstance) (force : Bool)
  | removeModal (id : String)
  | setModalData (d : α) (id : String)
  | resetModalData (id : String)
  | resetAllModalData

/-- Apply one call to the state (for `setModalData`, the state once its
deferred write has run). -/
def applyOp {α : Type} (s : NgxSmartModalService α) :
    RegistryOp α → NgxSmartModalService α
  | .addModal m force => addModal s m force
  | .removeModal id => removeModal s id
  | .setModalData d id => (setModalData s d id).2
  | .resetModalData id => resetModalData s id
  | .resetAllModalData => resetAllModalData s

/-- Apply a sequence of calls left to right, each taking full effect
before the next. -/
def applyOps {α : Type} (s : NgxSmartModalService α) (ops : List (RegistryOp α)) :
    NgxSmartModalService α :=
  ops.foldl applyOp s

/- Concrete states used to evaluate the definitions. -/

/-- A handle that is hidden at layer 0. -/
def hM1 : NgxSmartModalComponent := { visible := false, layerPosition := 0 }

/-- A visible handle at layer 1. -/
def hA : NgxSmartModalComponent := { visible := true, layerPosition := 1 }

/-- A hidden handle at layer 2. -/
def hB : NgxSmartModalComponent := { visible := false, layerPosition := 2 }

/-- A service with the single modal `m1` registered and no data. -/
def svcM1 : NgxSmartModalService Int :=
  { modalStack := [{ id := "m1", modal := hM1 }], modalData := [] }

/-- A service with two `modalStack` entries sharing the id `m1` but with
distinct handles. -/
def svcDup : NgxSmartModalService Int :=
  { modalStack := [{ id := "m1", modal := hA }, { id := "m1", modal := hB }],
    modalData := [] }

/-- A service with modal `m1` registered and one data entry for it. -/
def svcData : NgxSmartModalService Int :=
  { modalStack := [{ id := "m1", modal := hM1 }],
    modalData := [{ id := "m1", data := 5 }] }

/-- Three open modals at layer positions 3, 7 and 2. -/
def svcLayers : NgxSmartModalService Int :=
  { modalStack :=
      [{ id := "a", modal := { visible := true, layerPosition := 3 } },
       { id := "b", modal := { visible := true, layerPosition := 7 } },
       { id := "c", modal := { visible := true, layerPosition := 2 } }],
    modalData := [] }

/-- Two registered modals, both hidden. -/
def svcHidden : NgxSmartModalService Int :=
  { modalStack :=
      [{ id := "a", modal := { visible := false, layerPosition := 3 } },
       { id := "b", modal := { visible := false, layerPosition := 7 } }],
    modalData := [] }

/-- A mix of visible and hidden modals. -/
def svcMix : NgxSmartModalService Int :=
  { modalStack :=
      [{ id := "a", modal := { visible := true, layerPosition := 1 } },
       { id := "b", modal := { visible := false, layerPosition := 2 } },
       { id := "c", modal := { visible := true, layerPosition := 3 } },
       { id := "d", modal := { visible := false, layerPosition := 4 } }],
    modalData := [] }

/- Helper lemmas. -/

/-- `foldl max` starting from `x` yields `x` or an element of the list. -/
lemma foldl_max_mem (xs : List Int) (x : Int) :
    xs.foldl max x = x ∨ xs.foldl max x ∈ xs := by
  induction xs generalizing x with
  | nil => exact Or.inl rfl
  | cons y ys ih =>
      rw [List.foldl_cons]
      rcases ih (max x y) with h | h
      · rcases max_choice x y with hm | hm
        · exact Or.inl (h.trans hm)
        · exact Or.inr (by rw [h, hm]; exact List.mem_cons_self y ys)
      · exact Or.inr (List.mem_cons_of_mem y h)

/-- `foldl max` bounds its seed and every element of the list. -/
lemma le_foldl_max (xs : List Int) (x : Int) :
    x ≤ xs.foldl max x ∧ ∀ y ∈ xs, y ≤ xs.foldl max x := by
  induction xs generalizing x with
  | nil => exact ⟨le_refl x, by intro y hy; cases hy⟩
  | cons z zs ih =>
      rw [List.foldl_cons]
      refine ⟨le_trans (le_max_left x z) (ih (max x z)).1, ?_⟩
      intro y hy
      rcases List.mem_cons.mp hy with rfl | hmem
      · exact le_trans (le_max_right x y) (ih (max x y)).1
      · exact (ih (max x z)).2 y hmem

/-- On a nonempty list, `jsMathMax` returns a finite value that is an
element of the list and an upper bound of it. -/
lemma jsMathMax_eq_max (l : List Int) (h : l ≠ []) :
    ∃ m, jsMathMax l = some m ∧ m ∈ l ∧ ∀ x ∈ l, x ≤ m := by
  cases l with
  | nil => exact absurd rfl h
  | cons x xs =>
      refine ⟨xs.foldl max x, rfl, ?_, ?_⟩
      · rcases foldl_max_mem xs x with h1 | h1
        · rw [h1]; exact List.mem_cons_self x xs
        · exact List.mem_cons_of_mem x h1
      · intro y hy
        rcases List.mem_cons.mp hy with rfl | hmem
        · exact (le_foldl_max xs y).1
        · exact (le_foldl_max xs x).2 y hmem

/-- The push-if-visible loop is `filter` with the accumulator in front. -/
lemma foldl_push_filter {β : Type} (p : β → Bool) (l acc : List β) :
    l.foldl (fun ms o => if p o then ms ++ [o] else ms) acc = acc ++ l.filter p := by
  induction l generalizing acc with
  | nil => simp
  | cons x xs ih =>
      cases h : p x
      · rw [List.foldl_cons, List.filter_cons]
        simp [h, ih]
      · rw [List.foldl_cons, List.filter_cons]
        simp [h, ih]

/-- Overwriting a `data` field leaves the sequence of ids unchanged. -/
lemma setDataFirst_map_id {α : Type} (l : List (DataEntry α)) (id : String) (d : α) :
    (setDataFirst l id d).map (fun o => o.id) = l.map (fun o => o.id) := by
  induction l with
  | nil => rfl
  | cons e es ih =>
      cases h : e.id == id
      · simp [setDataFirst, h, ih]
      · simp [setDataFirst, h]

/-- `addModal` never touches the `modalData` array. -/
lemma addModal_modalData {α : Type} (s : NgxSmartModalService α)
    (m : ModalInstance) (f : Bool) :
    (addModal s m f).modalData = s.modalData := by
  cases f
  · simp [addModal]
  · cases hidx : s.modalStack.findIdx? (fun o => o.id == m.id) <;>
      simp [addModal, hidx]

/- Claim theorems. -/

/-- C1: `removeModal` is claimed to delete all matching entries and
mutate the store, so that a later `getModal` misses and the count drops.
The source instead discards the result of `filter`: the state is returned
unchanged for every input, and on the concrete one-modal service the
removed id is still found and the count is still 1. -/
theorem removeModal_leaves_state_unchanged :
    (∀ (α : Type) (s : NgxSmartModalService α) (id : String),
        removeModal s id = s) ∧
    getModal (removeModal svcM1 "m1") "m1" = some { id := "m1", modal := hM1 } ∧
    getModalStackCount (removeModal svcM1 "m1") = 1 :=
  ⟨fun _ _ _ => rfl, by decide, by decide⟩

/-- C2: with `force = true` and no existing entry of that id, `addModal`
is claimed to append the entry. The source instead returns before the
push: on the empty service the stack stays empty, the count stays 0, and
the id cannot be looked up. -/
theorem addModal_force_on_absent_id_adds_nothing :
    addModal (emptyService Int) { id := "m1", modal := hM1 } true
      = emptyService Int ∧
    getModalStackCount
      (addModal (emptyService Int) { id := "m1", modal := hM1 } true) = 0 ∧
    getModal (addModal (emptyService Int) { id := "m1", modal := hM1 } true)
      "m1" = none :=
  ⟨rfl, rfl, rfl⟩

/-- C3: `getModal` is claimed to return the FIRST matching entry's handle.
On a stack holding two entries with id `m1` and distinct handles, the
source's loop returns the LAST matching `ModalInstance` — the whole
`(id, handle)` pair, not the handle — while the miss case does return the
null marker. -/
theorem getModal_returns_last_matching_pair :
    getModal svcDup "m1" = some { id := "m1", modal := hB } ∧
    getModal svcDup "m1" ≠ some { id := "m1", modal := hA } ∧
    getModal (emptyService Int) "m1" = none := by
  refine ⟨by decide, by decide, rfl⟩

/-- C4: after `setModalData` takes effect, `getModalData` is claimed to
return the stored data `d` itself (and `d2` after an overwrite). The
source returns the whole `DataEntry` `{id, data}` instead: storing 7 then
reading yields the entry `⟨m1, 7⟩`, a second write of 9 overwrites in
place (one entry, value 9, not two entries), and a missing id yields the
absent marker. -/
theorem getModalData_returns_whole_entry :
    getModalData (setModalData svcM1 7 "m1").2 "m1"
      = some { id := "m1", data := 7 } ∧
    getModalData (setModalData (setModalData svcM1 7 "m1").2 9 "m1").2 "m1"
      = some { id := "m1", data := 9 } ∧
    ((setModalData (setModalData svcM1 7 "m1").2 9 "m1").2).modalData.length
      = 1 ∧
    getModalData svcM1 "m1" = none := by
  refine ⟨by decide, by decide, by decide, rfl⟩

/-- C9: `resetModalData` is claimed to remove the matching `DataEntry` so
that `getModalData` then misses. The source discards the result of
`filter`: the state is returned unchanged for every input, and on a
service holding data for `m1` the data is still found afterwards. -/
theorem resetModalData_leaves_data_unchanged :
    (∀ (α : Type) (s : NgxSmartModalService α) (id : String),
        resetModalData s id = s) ∧
    getModalData (resetModalData svcData "m1") "m1"
      = some { id := "m1", data := 5 } ∧
    (getAllModalData (resetModalData svcData "m1")).length = 1 :=
  ⟨fun _ _ _ => rfl, by decide, by decide⟩

/-- C5: when no `modalStack` entry carries the id, `setModalData` returns
`false` and leaves the whole state (in particular the payload collection)
unchanged; when such an entry exists it returns `true`. -/
theorem setModalData_guard {α : Type} (s : NgxSmartModalService α) (d : α)
    (id : String) :
    ((∀ o ∈ s.modalStack, o.id ≠ id) → setModalData s d id = (false, s)) ∧
    ((∃ o ∈ s.modalStack, o.id = id) → (setModalData s d id).1 = true) := by
  constructor
  · intro h
    have hf : s.modalStack.find? (fun o => o.id == id) = none := by
      rw [List.find?_eq_none]
      intro o ho
      simpa using h o ho
    simp [setModalData, hf]
  · rintro ⟨o, ho, hid⟩
    have hf : (s.modalStack.find? (fun o => o.id == id)).isSome := by
      rw [List.find?_isSome]
      exact ⟨o, ho, by simpa using hid⟩
    cases hd : (s.modalData.find? (fun o => o.id == id)).isSome <;>
      simp [setModalData, hf, hd]

/-- C5 witness: on the empty service, writing to the unknown id `u` yields
`false` and the untouched state; on the service holding modal `m1`,
writing to `m1` yields `true`. -/
theorem setModalData_guard_witness :
    setModalData (emptyService Int) 1 "u" = (false, emptyService Int) ∧
    (setModalData svcM1 1 "m1").1 = true :=
  ⟨(setModalData_guard (emptyService Int) 1 "u").1
      (by intro o ho; cases ho),
   (setModalData_guard svcM1 1 "m1").2
      ⟨{ id := "m1", modal := hM1 }, by decide, rfl⟩⟩

/-- C6: with at least one open modal, `getHigherIndex` returns `m + 1`
where `m` is the maximum `layerPosition` among the open modals: `m` is one
of the open layer positions and bounds all of them. -/
theorem getHigherIndex_is_max_plus_one {α : Type} (s : NgxSmartModalService α)
    (h : getOpenedModals s ≠ []) :
    ∃ m : Int,
      getHigherIndex s = some (m + 1) ∧
      m ∈ (getOpenedModals s).map (fun o => o.modal.layerPosition) ∧
      ∀ x ∈ (getOpenedModals s).map (fun o => o.modal.layerPosition), x ≤ m := by
  have hne : (getOpenedModals s).map (fun o => o.modal.layerPosition) ≠ [] := by
    simpa [List.map_eq_nil_iff] using h
  obtain ⟨m, hm, hmem, hub⟩ := jsMathMax_eq_max _ hne
  exact ⟨m, by simp [getHigherIndex, hm], hmem, hub⟩

/-- C6 witness: over open modals at layer positions 3, 7, 2 the maximum
exists and the call returns 8. -/
theorem getHigherIndex_is_max_plus_one_witness :
    getHigherIndex svcLayers = some 8 ∧
    (∃ m : Int,
      getHigherIndex svcLayers = some (m + 1) ∧
      m ∈ (getOpenedModals svcLayers).map (fun o => o.modal.layerPosition) ∧
      ∀ x ∈ (getOpenedModals svcLayers).map (fun o => o.modal.layerPosition),
        x ≤ m) :=
  ⟨by decide, getHigherIndex_is_max_plus_one svcLayers (by decide)⟩

/-- C7: with no open modal, `getHigherIndex` propagates the maximum of the
empty set: the result is the non-finite marker, not any integer. -/
theorem getHigherIndex_empty_nonfinite {α : Type} (s : NgxSmartModalService α)
    (h : getOpenedModals s = []) :
    getHigherIndex s = none ∧ ∀ m : Int, getHigherIndex s ≠ some m := by
  have hz : getHigherIndex s = none := by
    simp [getHigherIndex, h, jsMathMax]
  exact ⟨hz, fun m hm => by rw [hz] at hm; cases hm⟩

/-- C7 witness: both on the empty registry and on a registry whose two
modals are all hidden, the call yields the non-finite marker. -/
theorem getHigherIndex_empty_nonfinite_witness :
    (getHigherIndex (emptyService Int) = none ∧
      ∀ m : Int, getHigherIndex (emptyService Int) ≠ some m) ∧
    (getHigherIndex svcHidden = none ∧
      ∀ m : Int, getHigherIndex svcHidden ≠ some m) :=
  ⟨getHigherIndex_empty_nonfinite (emptyService Int) rfl,
   getHigherIndex_empty_nonfinite svcHidden (by decide)⟩

/-- C8: `getOpenedModals` returns exactly the stack entries whose handle
is visible — it equals `filter` over the stack, is a sublist of the stack
(insertion order preserved), and an entry belongs to it precisely when it
belongs to the stack and is visible. -/
theorem getOpenedModals_is_ordered_filter {α : Type} (s : NgxSmartModalService α) :
    getOpenedModals s = s.modalStack.filter (fun o => o.modal.visible) ∧
    (getOpenedModals s).Sublist s.modalStack ∧
    ∀ o : ModalInstance,
      o ∈ getOpenedModals s ↔ o ∈ s.modalStack ∧ o.modal.visible = true := by
  have h : getOpenedModals s = s.modalStack.filter (fun o => o.modal.visible) := by
    simpa using foldl_push_filter (fun o => o.modal.visible) s.modalStack []
  refine ⟨h, ?_, ?_⟩
  · rw [h]; exact List.filter_sublist s.modalStack
  · intro o
    rw [h, List.mem_filter]

/-- C8 witness: on a four-modal service mixing visible and hidden handles,
the open list is the filtered stack in insertion order. -/
theorem getOpenedModals_is_ordered_filter_witness :
    getOpenedModals svcMix = svcMix.modalStack.filter (fun o => o.modal.visible) ∧
    getOpenedModals svcMix
      = [{ id := "a", modal := { visible := true, layerPosition := 1 } },
         { id := "c", modal := { visible := true, layerPosition := 3 } }] :=
  ⟨(getOpenedModals_is_ordered_filter svcMix).1, by decide⟩

/-- With pairwise-distinct ids, at most one entry survives a filter on any
one id. -/
lemma filter_id_length_le_one {α : Type} (l : List (DataEntry α)) (id : String)
    (h : (l.map (fun o => o.id)).Nodup) :
    (l.filter (fun o => o.id == id)).length ≤ 1 := by
  induction l with
  | nil => simp
  | cons e es ih =>
      rw [List.map_cons, List.nodup_cons] at h
      cases he : e.id == id
      · rw [List.filter_cons]
        simpa [he] using ih h.2
      · have hid : e.id = id := by simpa using he
        have hnil : es.filter (fun o => o.id == id) = [] := by
          rw [List.filter_eq_nil_iff]
          intro o ho
          have hne : o.id ≠ e.id := by
            intro hh
            exact h.1 (hh ▸ List.mem_map_of_mem (fun o => o.id) ho)
          simpa [hid] using fun hoid => hne (hoid.trans hid.symm)
        rw [List.filter_cons]
        simp [he, hnil]

/-- Every single call preserves pairwise-distinct ids in `modalData`. -/
lemma applyOp_keeps_nodup_ids {α : Type} (s : NgxSmartModalService α)
    (op : RegistryOp α) (h : (s.modalData.map (fun o => o.id)).Nodup) :
    (((applyOp s op).modalData).map (fun o => o.id)).Nodup := by
  cases op with
  | addModal m f =>
      simpa [applyOp, addModal_modalData] using h
  | removeModal id => exact h
  | resetModalData id => exact h
  | resetAllModalData => simp [applyOp, resetAllModalData]
  | setModalData d id =>
      show (((setModalData s d id).2.modalData).map (fun o => o.id)).Nodup
      cases hs : (s.modalStack.find? (fun o => o.id == id)).isSome
      · simpa [setModalData, hs] using h
      · cases hd : (s.modalData.find? (fun o => o.id == id)).isSome
        · have habs : id ∉ s.modalData.map (fun o => o.id) := by
            intro hmem
            obtain ⟨o, ho, hoid⟩ := List.mem_map.mp hmem
            have : s.modalData.find? (fun o => o.id == id) = none :=
              Option.not_isSome_iff_eq_none.mp (by simp [hd])
            exact absurd (by simpa using hoid)
              (by simpa using List.find?_eq_none.mp this o ho)
          rw [setModalData]
          simp only [hs, hd, if_true, if_false, Bool.false_eq_true]
          rw [List.map_append]
          refine List.Nodup.append h (by simp) ?_
          intro x hx hx1
          simp only [List.map_cons, List.map_nil, List.mem_singleton] at hx1
          exact habs (hx1 ▸ hx)
        · rw [setModalData]
          simp only [hs, hd, if_true]
          rw [setDataFirst_map_id]
          exact h

/-- Applying any call sequence preserves pairwise-distinct ids. -/
lemma applyOps_keeps_nodup_ids {α : Type} (ops : List (RegistryOp α))
    (s : NgxSmartModalService α) (h : (s.modalData.map (fun o => o.id)).Nodup) :
    (((applyOps s ops).modalData).map (fun o => o.id)).Nodup := by
  induction ops generalizing s with
  | nil => exact h
  | cons op rest ih => exact ih (applyOp s op) (applyOp_keeps_nodup_ids s op h)

/-- C10: starting from the empty registry, after any sequence of calls has
fully taken effect the payload collection holds at most one `DataEntry`
per id. -/
theorem modalData_at_most_one_entry_per_id {α : Type}
    (ops : List (RegistryOp α)) (id : String) :
    (((applyOps (emptyService α) ops).modalData).filter
        (fun o => o.id == id)).length ≤ 1 :=
  filter_id_length_le_one _ id
    (applyOps_keeps_nodup_ids ops (emptyService α) (by simp [emptyService]))

/-- C10 witness: registering `m1` and writing its data twice leaves at
most one payload entry for `m1`. -/
theorem modalData_at_most_one_entry_per_id_witness :
    (((applyOps (emptyService Int)
        [RegistryOp.addModal { id := "m1", modal := hM1 } false,
         RegistryOp.setModalData 1 "m1",
         RegistryOp.setModalData 2 "m1"]).modalData).filter
        (fun o => o.id == "m1")).length ≤ 1 :=
  modalData_at_most_one_entry_per_id
    [RegistryOp.addModal { id := "m1", modal := hM1 } false,
     RegistryOp.setModalData 1 "m1",
     RegistryOp.setModalData 2 "m1"] "m1"
